import Mathlib

set_option linter.unusedVariables false

namespace IdeaClaudeGui

/-!
Shallow embedding of the inline history completion engine
(`src/webview/src/components/ChatInputBox/hooks/useInlineHistoryCompletion.ts`),
the keyboard dispatch hook
(`src/webview/src/components/ChatInputBox/hooks/useKeyboardHandler.ts`),
and the API-key preview of the config display component.

JavaScript strings are modelled as Lean `String` (one `Char` per code point),
`Record<string, number>` objects as association lists in `Object.entries`
order (keys distinct), and the stable ES2019 `Array.prototype.sort` as
Mathlib's stable `List.insertionSort`.  The external store (history list,
count map, enabled flag) is passed as explicit parameters; timers are
modelled by a `pending` field holding the scheduled query, fired by a
separate `debounceFire` step.
-/

/-- `MAX_COUNT_RECORDS` from useInlineHistoryCompletion.ts. -/
def MAX_COUNT_RECORDS : Nat := 100

/-- The comparator `(a, b) => b[1] - a[1]` of `cleanupCounts`, as the
relation "a may come before b": count of `a` is at least count of `b`. -/
def countGE (a b : String × Nat) : Prop := b.2 ≤ a.2

instance : DecidableRel countGE := fun a b => inferInstanceAs (Decidable (b.2 ≤ a.2))

instance : IsTotal (String × Nat) countGE := ⟨fun a b => le_total b.2 a.2⟩

instance : IsTrans (String × Nat) countGE := ⟨fun _ _ _ h1 h2 => le_trans h2 h1⟩

/-- `cleanupCounts`: keep the counts unchanged when at most
`MAX_COUNT_RECORDS` entries, otherwise stably sort by count descending and
keep the top `MAX_COUNT_RECORDS`. -/
def cleanupCounts (counts : List (String × Nat)) : List (String × Nat) :=
  if counts.length ≤ MAX_COUNT_RECORDS then counts
  else (counts.insertionSort countGE).take MAX_COUNT_RECORDS

/-- JS `record[key] || 0`: look the key up in the association list,
defaulting to 0. -/
def lookupCount (counts : List (String × Nat)) (s : String) : Nat :=
  match counts.find? (fun e => e.1 == s) with
  | some e => e.2
  | none => 0

/-- JS `String.prototype.toLowerCase`, code-point-wise. -/
def lowerStr (s : String) : String := String.mk (s.data.map Char.toLower)

/-- JS `s.startsWith(pre)`. -/
def jsStartsWith (s pre : String) : Bool := pre.data.isPrefixOf s.data

/-- The filter predicate of `findBestMatch`: the lowercased item starts
with the lowercased query and the item is strictly longer than the query. -/
def isCandidate (query item : String) : Bool :=
  jsStartsWith (lowerStr item) (lowerStr query) && decide (query.length < item.length)

/-- The sort comparator of `findBestMatch`
(`countB - countA`, ties by `a.length - b.length`), as the relation
"a may come before b". -/
def matchLE (cnt : String → Nat) (a b : String) : Prop :=
  cnt b < cnt a ∨ (cnt a = cnt b ∧ a.length ≤ b.length)

instance (cnt : String → Nat) : DecidableRel (matchLE cnt) := fun a b => by
  unfold matchLE; infer_instance

instance (cnt : String → Nat) : IsTotal String (matchLE cnt) := by
  constructor
  intro a b
  unfold matchLE
  rcases Nat.lt_trichotomy (cnt a) (cnt b) with h | h | h
  · exact Or.inr (Or.inl h)
  · rcases Nat.le_total a.length b.length with hl | hl
    · exact Or.inl (Or.inr ⟨h, hl⟩)
    · exact Or.inr (Or.inr ⟨h.symm, hl⟩)
  · exact Or.inl (Or.inl h)

instance (cnt : String → Nat) : IsTrans String (matchLE cnt) := by
  constructor
  intro a b c hab hbc
  unfold matchLE at *
  rcases hab with h1 | ⟨h1, l1⟩ <;> rcases hbc with h2 | ⟨h2, l2⟩
  · exact Or.inl (h2.trans h1)
  · exact Or.inl (h2 ▸ h1)
  · exact Or.inl (h1 ▸ h2)
  · exact Or.inr ⟨h1.trans h2, l1.trans l2⟩

/-- `findBestMatch` from useInlineHistoryCompletion.ts (pure result):
guard on the enabled flag and minimum query length, filter history to
candidates, stably sort by usage count descending then length ascending,
and return the first element.  The counts used for ranking are the
opportunistically cleaned counts. -/
def findBestMatch (enabled : Bool) (minQueryLength : Nat) (history : List String)
    (counts : List (String × Nat)) (query : String) : Option String :=
  if !enabled || decide (query.length < minQueryLength) then none
  else
    let cleanedCounts := cleanupCounts counts
    let matchList := history.filter (isCandidate query)
    if matchList.isEmpty then none
    else (matchList.insertionSort (matchLE (lookupCount cleanedCounts))).head?

/-- The `localStorage.setItem` call of the opportunistic count prune: the
store may throw (e.g. quota exceeded). -/
def setItemCounts (writeFails : Bool) : Except String Unit :=
  if writeFails then Except.error "QuotaExceededError" else Except.ok ()

/-- The `try { ... } catch { /* ignore */ }` around the prune write. -/
def tryIgnore (x : Except String Unit) : Except String Unit :=
  match x with
  | Except.ok _ => Except.ok ()
  | Except.error _ => Except.ok ()

/-- `findBestMatch` with its store-write side effect made explicit in the
`Except` monad: when the cleaned counts differ in size from the stored
counts, the cleaned map is written back, with any write error swallowed by
the `try`/`catch`; then the search proceeds as in `findBestMatch`. -/
def findBestMatchE (writeFails : Bool) (enabled : Bool) (minQueryLength : Nat)
    (history : List String) (counts : List (String × Nat)) (query : String) :
    Except String (Option String) :=
  if !enabled || decide (query.length < minQueryLength) then Except.ok none
  else
    let cleanedCounts := cleanupCounts counts
    (if cleanedCounts.length ≠ counts.length then tryIgnore (setItemCounts writeFails)
     else Except.ok ()).bind fun _ =>
      let matchList := history.filter (isCandidate query)
      if matchList.isEmpty then Except.ok none
      else Except.ok ((matchList.insertionSort (matchLE (lookupCount cleanedCounts))).head?)

/-- The invisible characters stripped by the regex replace in
`updateQuery`: the range U+200B to U+200D, and U+FEFF. -/
def isInvisibleChar (c : Char) : Bool :=
  ('\u200B' ≤ c && c ≤ '\u200D') || c == '\uFEFF'

/-- `cleanText` computation of `updateQuery`: strip invisible characters,
then trim surrounding whitespace. -/
def cleanQuery (text : String) : String :=
  (String.mk (text.data.filter (fun c => !isInvisibleChar c))).trim

/-- JS `match.slice(cleanText.length)`. -/
def jsSliceFrom (s : String) (n : Nat) : String := String.mk (s.data.drop n)

/-- The mutable state of the useInlineHistoryCompletion hook: the `suffix`
and `fullSuggestion` React states, the `lastQueryRef` ref, and the pending
debounce timer (carrying the clean text the timer closure captured). -/
structure CompletionState where
  suffix : String
  fullSuggestion : Option String
  lastQuery : String
  pending : Option String
  deriving DecidableEq

/-- `updateQuery(text)`: cancel any pending debounce; if the cleaned text
is empty or shorter than the minimum, synchronously clear all suggestion
state; otherwise schedule a debounced search for the cleaned text. -/
def updateQuery (minQueryLength : Nat) (s : CompletionState) (text : String) :
    CompletionState :=
  let cleanText := cleanQuery text
  if cleanText == "" || decide (cleanText.length < minQueryLength) then
    { suffix := "", fullSuggestion := none, lastQuery := "", pending := none }
  else
    { s with pending := some cleanText }

/-- The debounce timer firing: record the clean text as the last-searched
query, run `findBestMatch`, and set suffix/fullSuggestion from the result
(suffix is the match with the query prefix removed). -/
def debounceFire (enabled : Bool) (minQueryLength : Nat) (history : List String)
    (counts : List (String × Nat)) (s : CompletionState) : CompletionState :=
  match s.pending with
  | none => s
  | some cleanText =>
    match findBestMatch enabled minQueryLength history counts cleanText with
    | some m =>
      { suffix := jsSliceFrom m cleanText.length, fullSuggestion := some m,
        lastQuery := cleanText, pending := none }
    | none =>
      { suffix := "", fullSuggestion := none, lastQuery := cleanText, pending := none }

/-- `clear()`: cancel any pending debounce and empty all suggestion state. -/
def clear (s : CompletionState) : CompletionState :=
  { suffix := "", fullSuggestion := none, lastQuery := "", pending := none }

/-- `applySuggestion()`: `if (!fullSuggestion) return null` (JS falsiness:
`null` or the empty string), otherwise return the full suggestion and clear
suffix, fullSuggestion and the last query. -/
def applySuggestion (s : CompletionState) : Option String × CompletionState :=
  match s.fullSuggestion with
  | none => (none, s)
  | some v =>
    if v == "" then (none, s)
    else (some v, { s with suffix := "", fullSuggestion := none, lastQuery := "" })

/-- The `storage` event handler: when the changed key is the enabled-flag
key, the new enabled state is `e.newValue !== 'false'` (with `none`
modelling a `null` new value); other keys leave the state unchanged. -/
def handleStorageChange (enabledKey key : String) (newValue : Option String)
    (enabled : Bool) : Bool :=
  if key == enabledKey then decide (newValue ≠ some "false") else enabled

/-- The invariant of the suggestion state claimed by the spec: either the
suffix is non-empty and the full suggestion present, or both empty/absent. -/
def suggestionInvariant (s : CompletionState) : Prop :=
  (s.suffix ≠ "" ∧ s.fullSuggestion ≠ none) ∨ (s.suffix = "" ∧ s.fullSuggestion = none)

instance (s : CompletionState) : Decidable (suggestionInvariant s) := by
  unfold suggestionInvariant; infer_instance

/-! Embedding of useKeyboardHandler.ts.  The callback props
(`handleMacCursorMovement`, the three completion popups,
`handleHistoryKeyDown`, `inlineCompletion.applySuggestion`) are modelled by
booleans recording whether they are present and whether they handle the
event; the outcome records which stage consumed the event and, for the
mode-cycle stage, which mode is passed to `onModeSelect`. -/

/-- The `sendShortcut` option: plain Enter or modifier+Enter. -/
inductive SendShortcut where
  | enter
  | cmdEnter
  deriving DecidableEq

/-- A key-down event as read by `onKeyDown` (React event plus the
`nativeEvent` fields it consults). -/
structure KeyEvent where
  key : String
  keyCode : Nat
  shiftKey : Bool
  metaKey : Bool
  ctrlKey : Bool
  nativeIsComposing : Bool
  deriving DecidableEq

/-- The props and ambient state `onKeyDown` reads: composition state,
timing, the send shortcut, SDK status, and the results of the earlier
handler stages. -/
structure KeyboardOpts where
  isComposing : Bool
  lastCompositionEndTime : Int
  now : Int
  sendShortcut : SendShortcut
  sdkStatusLoading : Bool
  sdkInstalled : Bool
  fileOpen : Bool
  fileHandles : Bool
  commandOpen : Bool
  commandHandles : Bool
  agentOpen : Bool
  agentHandles : Bool
  macCursorHandles : Bool
  historyHandles : Bool
  hasInlineCompletion : Bool
  inlineApplies : Bool
  permissionMode : Option String
  currentProvider : Option String
  hasOnModeSelect : Bool
  deriving DecidableEq

/-- What a single `onKeyDown` dispatch did. -/
inductive KeyOutcome where
  | macCursor
  | cursorMovement
  | fileConsumed
  | commandConsumed
  | agentConsumed
  | modeSelect (m : String)
  | inlineApplied
  | historyConsumed
  | noSend
  | sendBlocked
  | submit
  deriving DecidableEq

/-- `isComposing || e.nativeEvent.isComposing`. -/
def isIMEComposingOf (o : KeyboardOpts) (e : KeyEvent) : Bool :=
  o.isComposing || e.nativeIsComposing

/-- `e.key === 'Enter' || e.nativeEvent.keyCode === 13`. -/
def isEnterKeyOf (e : KeyEvent) : Bool :=
  e.key == "Enter" || e.keyCode == 13

/-- `Date.now() - lastCompositionEndTimeRef.current < 100`. -/
def isRecentlyComposingOf (o : KeyboardOpts) : Bool :=
  decide (o.now - o.lastCompositionEndTime < 100)

/-- The `isSendKey` computation: in `cmdEnter` mode, Enter with a modifier
and no active composition; in `enter` mode, Enter without Shift, no active
composition and no composition ended within the last 100ms. -/
def isSendKeyOf (o : KeyboardOpts) (e : KeyEvent) : Bool :=
  match o.sendShortcut with
  | SendShortcut.cmdEnter => isEnterKeyOf e && (e.metaKey || e.ctrlKey) && !isIMEComposingOf o e
  | SendShortcut.enter =>
      isEnterKeyOf e && !e.shiftKey && !isIMEComposingOf o e && !isRecentlyComposingOf o

/-- JS truthiness of an optional string prop: present and non-empty. -/
def jsTruthy : Option String → Bool
  | none => false
  | some s => s != ""

/-- The `modeOrder` array of the Shift+Tab mode cycle. -/
def modeOrder : List String := ["default", "plan", "acceptEdits", "bypassPermissions"]

/-- JS `Array.prototype.indexOf`: index of the first occurrence, `-1` when
absent. -/
def jsIndexOf (l : List String) (x : String) : Int :=
  go l 0
where
  go : List String → Int → Int
    | [], _ => -1
    | y :: l, i => if y == x then i else go l (i + 1)

/-- `modeOrder[(modeOrder.indexOf(permissionMode) + 1) % modeOrder.length]`. -/
def nextPermissionMode (m : String) : String :=
  modeOrder.getD ((jsIndexOf modeOrder m + 1) % (modeOrder.length : Int)).toNat ""

/-- `onKeyDown` from useKeyboardHandler.ts as a dispatch function: each
stage either consumes the event (yielding its outcome) or defers to the
next; the final stage decides sending. -/
def onKeyDown (o : KeyboardOpts) (e : KeyEvent) : KeyOutcome :=
  if o.macCursorHandles then KeyOutcome.macCursor
  else if e.key == "Home" || e.key == "End"
      || ((e.key == "a" || e.key == "A") && e.ctrlKey && !e.metaKey)
      || ((e.key == "e" || e.key == "E") && e.ctrlKey && !e.metaKey) then
    KeyOutcome.cursorMovement
  else if o.fileOpen && o.fileHandles then KeyOutcome.fileConsumed
  else if o.commandOpen && o.commandHandles then KeyOutcome.commandConsumed
  else if o.agentOpen && o.agentHandles then KeyOutcome.agentConsumed
  else if e.key == "Tab" && e.shiftKey && !isIMEComposingOf o e
      && (o.currentProvider == some "claude") && o.hasOnModeSelect
      && jsTruthy o.permissionMode then
    KeyOutcome.modeSelect (nextPermissionMode (o.permissionMode.getD ""))
  else if e.key == "Tab" && o.hasInlineCompletion && o.inlineApplies then
    KeyOutcome.inlineApplied
  else if o.historyHandles then KeyOutcome.historyConsumed
  else if !isSendKeyOf o e then KeyOutcome.noSend
  else if o.sdkStatusLoading || !o.sdkInstalled then KeyOutcome.sendBlocked
  else KeyOutcome.submit

/-! Embedding of `getApiKeyPreview` from the config display component
(src/unnamed/part_000). -/

/-- `getApiKeyPreview`: the empty key renders the not-configured text;
with `showApiKey` the raw key; keys of length at most 10 render as that
many bullets; longer keys render as the first 8 characters, 8 bullets and
the last 4 characters (`slice(0, 8)`, `'•'.repeat(8)`, `slice(-4)`). -/
def getApiKeyPreview (showApiKey : Bool) (apiKey : String) : String :=
  if apiKey == "" then "未配置"
  else if showApiKey then apiKey
  else if apiKey.length ≤ 10 then String.mk (List.replicate apiKey.length '•')
  else
    String.mk (apiKey.data.take 8) ++ String.mk (List.replicate 8 '•')
      ++ String.mk (apiKey.data.drop (apiKey.length - 4))

/-! Concrete inputs used by witnesses and counterexamples. -/

/-- A hook state holding an active suggestion for the query "hel". -/
def exSt : CompletionState :=
  { suffix := "lo world", fullSuggestion := some "hello world", lastQuery := "hel",
    pending := none }

/-- A count map with 101 entries (distinct single-character keys, counts
descending from 101 to 1). -/
def bigCounts : List (String × Nat) :=
  (List.range 101).map (fun i => (String.mk [Char.ofNat (65 + i)], 101 - i))

/-- A count map with a single entry. -/
def smallCounts : List (String × Nat) := [("abc", 3)]

/-- Baseline keyboard options: nothing open, no handler consumes, SDK
installed, no composition, Claude provider. -/
def baseOpts : KeyboardOpts :=
  { isComposing := false, lastCompositionEndTime := 0, now := 1000,
    sendShortcut := SendShortcut.enter, sdkStatusLoading := false, sdkInstalled := true,
    fileOpen := false, fileHandles := false, commandOpen := false, commandHandles := false,
    agentOpen := false, agentHandles := false, macCursorHandles := false,
    historyHandles := false, hasInlineCompletion := false, inlineApplies := false,
    permissionMode := none, currentProvider := some "claude", hasOnModeSelect := false }

/-- Options for the C8 counterexample: cmdEnter shortcut, composition
ended 50ms ago, no active composition. -/
def cexOpts8 : KeyboardOpts :=
  { baseOpts with
    sendShortcut := SendShortcut.cmdEnter
    lastCompositionEndTime := 1000
    now := 1050 }

/-- Cmd+Enter key-down, no native composition. -/
def cexEvt8 : KeyEvent :=
  { key := "Enter", keyCode := 13, shiftKey := false, metaKey := true, ctrlKey := false,
    nativeIsComposing := false }

/-- Options with an active composition, plain-Enter shortcut, composition
ended 50ms before the event. -/
def wOpts8 : KeyboardOpts :=
  { baseOpts with
    isComposing := true
    lastCompositionEndTime := 950 }

/-- Plain Enter key-down. -/
def wEvt8 : KeyEvent :=
  { key := "Enter", keyCode := 13, shiftKey := false, metaKey := false, ctrlKey := false,
    nativeIsComposing := false }

/-- Options for the C9 counterexample: mode-select callback present and an
empty-string (JS-falsy) permission mode. -/
def cexOpts9 : KeyboardOpts :=
  { baseOpts with
    permissionMode := some ""
    hasOnModeSelect := true }

/-- Shift+Tab key-down, no composition. -/
def cexEvt9 : KeyEvent :=
  { key := "Tab", keyCode := 9, shiftKey := true, metaKey := false, ctrlKey := false,
    nativeIsComposing := false }

/-- Options for the C9 witness: permission mode "plan", callback present. -/
def wOpts9 : KeyboardOpts :=
  { baseOpts with
    permissionMode := some "plan"
    hasOnModeSelect := true }

/-! Theorems. -/

/-- `matchLE` is reflexive. -/
theorem matchLE_refl (cnt : String → Nat) (a : String) : matchLE cnt a a :=
  Or.inr ⟨rfl, le_refl _⟩

/-- Any match returned by `findBestMatch` is a history item satisfying the
candidate predicate, and is minimal under the sort comparator among all
candidates. -/
theorem findBestMatch_spec {enabled : Bool} {minQueryLength : Nat} {history : List String}
    {counts : List (String × Nat)} {query m : String}
    (h : findBestMatch enabled minQueryLength history counts query = some m) :
    m ∈ history ∧ isCandidate query m = true ∧
      ∀ c ∈ history, isCandidate query c = true →
        matchLE (lookupCount (cleanupCounts counts)) m c := by
  unfold findBestMatch at h
  split at h
  · exact absurd h (by simp)
  · set cnt := lookupCount (cleanupCounts counts) with hcnt
    set ml := history.filter (isCandidate query) with hml
    by_cases he : ml.isEmpty
    · rw [if_pos he] at h; exact absurd h (by simp)
    · rw [if_neg he] at h
      have hsorted : List.Sorted (matchLE cnt) (ml.insertionSort (matchLE cnt)) :=
        List.sorted_insertionSort _ _
      cases hs : ml.insertionSort (matchLE cnt) with
      | nil => rw [hs] at h; exact absurd h (by simp)
      | cons a t =>
        rw [hs] at h
        have ham : a = m := by simpa using h
        subst ham
        rw [hs] at hsorted
        have hmem : a ∈ ml := by
          have : a ∈ ml.insertionSort (matchLE cnt) := by
            rw [hs]; exact List.mem_cons_self _ _
          simpa using this
        have hfm := List.mem_filter.mp (hml ▸ hmem)
        refine ⟨hfm.1, hfm.2, ?_⟩
        intro c hc hcand
        have hcml : c ∈ ml := hml ▸ List.mem_filter.mpr ⟨hc, hcand⟩
        have hcs : c ∈ a :: t := by
          rw [← hs]; simpa using hcml
        rcases List.mem_cons.mp hcs with rfl | hct
        · exact matchLE_refl _ _
        · exact List.rel_of_sorted_cons hsorted c hct

/-- C1: for every history list and cleaned query, every string returned by
`findBestMatch` starts with the query under case-insensitive comparison and
is strictly longer than the query; in particular a history item identical
to the query is never returned. -/
theorem c1_match_starts_with_query_and_longer
    (enabled : Bool) (minQueryLength : Nat) (history : List String)
    (counts : List (String × Nat)) (query m : String)
    (h : findBestMatch enabled minQueryLength history counts query = some m) :
    jsStartsWith (lowerStr m) (lowerStr query) = true ∧
    query.length < m.length ∧ m ≠ query := by
  have hcand := (findBestMatch_spec h).2.1
  unfold isCandidate at hcand
  have h1 := (Bool.and_eq_true _ _).mp hcand
  have hlen : query.length < m.length := of_decide_eq_true h1.2
  refine ⟨h1.1, hlen, ?_⟩
  intro heq
  rw [heq] at hlen
  exact lt_irrefl _ hlen

/-- C1 witness: the query "hel" against history ["hello world"]. -/
theorem c1_witness :
    findBestMatch true 2 ["hello world"] [] "hel" = some "hello world" ∧
    (jsStartsWith (lowerStr "hello world") (lowerStr "hel") = true ∧
      ("hel" : String).length < ("hello world" : String).length ∧
      "hello world" ≠ "hel") :=
  ⟨by decide,
   c1_match_starts_with_query_and_longer true 2 ["hello world"] [] "hel" "hello world"
     (by decide)⟩

/-- C2: the match returned by `findBestMatch` is a candidate of maximal
usage count under the counts the sort consults (the cleaned count map,
missing entries counting as 0), and among candidates of that maximal count
one of minimal length; so of two candidates with different counts the
higher-count one is preferred regardless of length, and of two with equal
count the shorter one. -/
theorem c2_match_maximal_count_minimal_length
    (enabled : Bool) (minQueryLength : Nat) (history : List String)
    (counts : List (String × Nat)) (query m : String)
    (h : findBestMatch enabled minQueryLength history counts query = some m) :
    m ∈ history ∧ isCandidate query m = true ∧
      ∀ c ∈ history, isCandidate query c = true →
        lookupCount (cleanupCounts counts) c ≤ lookupCount (cleanupCounts counts) m ∧
        (lookupCount (cleanupCounts counts) c = lookupCount (cleanupCounts counts) m →
          m.length ≤ c.length) := by
  obtain ⟨hmem, hcand, hbest⟩ := findBestMatch_spec h
  refine ⟨hmem, hcand, ?_⟩
  intro c hc hcandc
  rcases hbest c hc hcandc with hlt | ⟨heq, hle⟩
  · exact ⟨le_of_lt hlt, fun hcc => absurd (hcc ▸ hlt) (lt_irrefl _)⟩
  · exact ⟨le_of_eq heq.symm, fun _ => hle⟩

/-- C2 witness: history ["abc", "abcd"] with count 1 on "abcd": the longer
but higher-count "abcd" is returned for query "ab". -/
theorem c2_witness :
    findBestMatch true 2 ["abc", "abcd"] [("abcd", 1)] "ab" = some "abcd" ∧
    ("abcd" ∈ ["abc", "abcd"] ∧ isCandidate "ab" "abcd" = true ∧
      ∀ c ∈ ["abc", "abcd"], isCandidate "ab" c = true →
        lookupCount (cleanupCounts [("abcd", 1)]) c ≤
          lookupCount (cleanupCounts [("abcd", 1)]) "abcd" ∧
        (lookupCount (cleanupCounts [("abcd", 1)]) c =
            lookupCount (cleanupCounts [("abcd", 1)]) "abcd" →
          ("abcd" : String).length ≤ c.length)) :=
  ⟨by decide,
   c2_match_maximal_count_minimal_length true 2 ["abc", "abcd"] [("abcd", 1)] "ab" "abcd"
     (by decide)⟩

/-- C3: `applySuggestion` is a consuming read: with an active suggestion it
returns the full matched string and clears suffix, full suggestion and last
query; with no active suggestion it returns null and leaves the state
unchanged; two consecutive calls with no intervening update have the second
call return nothing. -/
theorem c3_applySuggestion_consuming (s : CompletionState) :
    (∀ v : String, s.fullSuggestion = some v → v ≠ "" →
        applySuggestion s =
          (some v, { s with suffix := "", fullSuggestion := none, lastQuery := "" })) ∧
    (s.fullSuggestion = none → applySuggestion s = (none, s)) ∧
    (applySuggestion (applySuggestion s).2).1 = none := by
  refine ⟨?_, ?_, ?_⟩
  · intro v hv hne
    unfold applySuggestion
    rw [hv]
    simp [hne]
  · intro hv
    unfold applySuggestion
    rw [hv]
  · cases hfs : s.fullSuggestion with
    | none => simp [applySuggestion, hfs]
    | some v =>
      by_cases hv : v = ""
      · simp [applySuggestion, hfs, hv]
      · simp [applySuggestion, hfs, hv]

/-- C3 witness: applying the active suggestion of `exSt` returns the full
match and clears state; a second call returns nothing. -/
theorem c3_witness :
    applySuggestion exSt =
      (some "hello world",
        { exSt with suffix := "", fullSuggestion := none, lastQuery := "" }) ∧
    (applySuggestion (applySuggestion exSt).2).1 = none :=
  ⟨(c3_applySuggestion_consuming exSt).1 "hello world" rfl (by decide),
   (c3_applySuggestion_consuming exSt).2.2⟩

/-- C4: every operation of the hook preserves the no-partial-state
invariant: after `updateQuery` (and after its debounce-fired search), after
`clear` and after `applySuggestion`, either the suffix is non-empty and the
full suggestion present, or both are empty/absent. -/
theorem c4_no_partial_suggestion_state (enabled : Bool) (minQueryLength : Nat)
    (history : List String) (counts : List (String × Nat)) (s : CompletionState)
    (hs : suggestionInvariant s) :
    (∀ text, suggestionInvariant (updateQuery minQueryLength s text)) ∧
    suggestionInvariant (debounceFire enabled minQueryLength history counts s) ∧
    suggestionInvariant (clear s) ∧
    suggestionInvariant (applySuggestion s).2 := by
  refine ⟨?_, ?_, ?_, ?_⟩
  · intro text
    unfold updateQuery
    dsimp only
    split
    · exact Or.inr ⟨rfl, rfl⟩
    · exact hs
  · cases hp : s.pending with
    | none =>
      unfold debounceFire
      rw [hp]
      exact hs
    | some q =>
      unfold debounceFire
      rw [hp]
      dsimp only
      cases hm : findBestMatch enabled minQueryLength history counts q with
      | none => exact Or.inr ⟨rfl, rfl⟩
      | some m =>
        left
        refine ⟨?_, by simp⟩
        have hcand := (findBestMatch_spec hm).2.1
        unfold isCandidate at hcand
        have hlen : q.length < m.length :=
          of_decide_eq_true ((Bool.and_eq_true _ _).mp hcand).2
        show jsSliceFrom m q.length ≠ ""
        intro heq
        have hdata : m.data.drop q.length = [] := congrArg String.data heq
        have : m.data.length ≤ q.length := List.drop_eq_nil_iff.mp hdata
        have hml : m.length = m.data.length := rfl
        omega
  · exact Or.inr ⟨rfl, rfl⟩
  · cases hfs : s.fullSuggestion with
    | none =>
      unfold applySuggestion
      rw [hfs]
      exact hs
    | some v =>
      unfold applySuggestion
      rw [hfs]
      dsimp only
      by_cases hv : v = ""
      · rw [if_pos (by simp [hv])]
        exact hs
      · rw [if_neg (by simp [hv])]
        exact Or.inr ⟨rfl, rfl⟩

/-- C4 witness: the invariant holds of `exSt` and is preserved by `clear`
and `applySuggestion` there. -/
theorem c4_witness :
    suggestionInvariant exSt ∧
    suggestionInvariant (clear exSt) ∧
    suggestionInvariant (applySuggestion exSt).2 :=
  ⟨by decide,
   (c4_no_partial_suggestion_state true 2 [] [] exSt (by decide)).2.2.1,
   (c4_no_partial_suggestion_state true 2 [] [] exSt (by decide)).2.2.2⟩

/-- C5: a count map with at most 100 entries is returned unchanged by
`cleanupCounts`; a map with more than 100 entries is pruned to exactly 100
entries, all taken from the input, and every kept entry's count is at least
every dropped entry's count. -/
theorem c5_cleanupCounts_prunes_to_top_100 (counts : List (String × Nat)) :
    (counts.length ≤ 100 → cleanupCounts counts = counts) ∧
    (100 < counts.length →
      (cleanupCounts counts).length = 100 ∧
      (∀ e ∈ cleanupCounts counts, e ∈ counts) ∧
      (∀ e ∈ cleanupCounts counts, ∀ d ∈ counts, d ∉ cleanupCounts counts →
        d.2 ≤ e.2)) := by
  constructor
  · intro hle
    unfold cleanupCounts MAX_COUNT_RECORDS
    rw [if_pos hle]
  · intro hgt
    have hnle : ¬ counts.length ≤ 100 := by omega
    have hdef : cleanupCounts counts = (counts.insertionSort countGE).take 100 := by
      unfold cleanupCounts MAX_COUNT_RECORDS
      rw [if_neg hnle]
    have hperm : List.Perm (counts.insertionSort countGE) counts :=
      List.perm_insertionSort _ _
    have hlen : (counts.insertionSort countGE).length = counts.length := hperm.length_eq
    refine ⟨?_, ?_, ?_⟩
    · rw [hdef, List.length_take, hlen]
      omega
    · intro e he
      rw [hdef] at he
      exact hperm.mem_iff.mp (List.mem_of_mem_take he)
    · intro e he d hd hdnot
      rw [hdef] at he hdnot
      have hdsorted : d ∈ counts.insertionSort countGE := hperm.mem_iff.mpr hd
      have hdd : d ∈ (counts.insertionSort countGE).drop 100 := by
        have hsplit := (List.take_append_drop 100 (counts.insertionSort countGE)) ▸ hdsorted
        rcases List.mem_append.mp hsplit with h | h
        · exact absurd h hdnot
        · exact h
      have hpair : List.Pairwise countGE (counts.insertionSort countGE) :=
        List.sorted_insertionSort _ _
      have hsplit2 :=
        List.pairwise_append.mp
          ((List.take_append_drop 100 (counts.insertionSort countGE)).symm ▸ hpair)
      exact hsplit2.2.2 e he d hdd

/-- C5 witness: a 101-entry map is pruned to 100 top-count entries; a
1-entry map is unchanged. -/
theorem c5_witness :
    (100 < bigCounts.length ∧
      ((cleanupCounts bigCounts).length = 100 ∧
        (∀ e ∈ cleanupCounts bigCounts, e ∈ bigCounts) ∧
        (∀ e ∈ cleanupCounts bigCounts, ∀ d ∈ bigCounts, d ∉ cleanupCounts bigCounts →
          d.2 ≤ e.2))) ∧
    (smallCounts.length ≤ 100 ∧ cleanupCounts smallCounts = smallCounts) :=
  ⟨⟨by decide, (c5_cleanupCounts_prunes_to_top_100 bigCounts).2 (by decide)⟩,
   ⟨by decide, (c5_cleanupCounts_prunes_to_top_100 smallCounts).1 (by decide)⟩⟩

/-- C6: the opportunistic prune write failing is fully swallowed: for every
write outcome, the effectful `findBestMatch` completes without surfacing an
error and returns exactly the pure search result — the same value as when
the write succeeds. -/
theorem c6_prune_write_failure_swallowed (writeFails enabled : Bool)
    (minQueryLength : Nat) (history : List String) (counts : List (String × Nat))
    (query : String) :
    findBestMatchE writeFails enabled minQueryLength history counts query =
      Except.ok (findBestMatch enabled minQueryLength history counts query) := by
  have hw : tryIgnore (setItemCounts writeFails) = Except.ok () := by
    cases writeFails <;> rfl
  unfold findBestMatchE findBestMatch
  split
  · rfl
  · dsimp only
    split
    · rw [hw]
      dsimp only [Except.bind]
      split <;> rfl
    · dsimp only [Except.bind]
      split <;> rfl

/-- C7: the enabled state derived from a change notification for the
enabled-flag key is false exactly when the new value is the literal string
"false" (absence or any other value is treated as enabled), and while the
enabled state is false the match search returns no suggestion for every
query. -/
theorem c7_enabled_flag_semantics :
    (∀ (enabledKey : String) (newValue : Option String) (en : Bool),
        (handleStorageChange enabledKey enabledKey newValue en = false ↔
          newValue = some "false")) ∧
    (∀ (minQueryLength : Nat) (history : List String) (counts : List (String × Nat))
        (query : String),
        findBestMatch false minQueryLength history counts query = none) := by
  constructor
  · intro k nv en
    unfold handleStorageChange
    rw [if_pos (by simp)]
    simp
  · intro minL h c q
    unfold findBestMatch
    simp

/-- With an active composition the send key is never recognized, in either
shortcut mode. -/
theorem isSendKeyOf_false_of_composing (o : KeyboardOpts) (e : KeyEvent)
    (h : isIMEComposingOf o e = true) : isSendKeyOf o e = false := by
  unfold isSendKeyOf
  rcases hss : o.sendShortcut
  all_goals simp [h]

/-- When the send key is not recognized, `onKeyDown` never submits. -/
theorem onKeyDown_ne_submit_of_sendKey_false (o : KeyboardOpts) (e : KeyEvent)
    (h : isSendKeyOf o e = false) : onKeyDown o e ≠ KeyOutcome.submit := by
  unfold onKeyDown
  rw [h]
  repeat' split
  all_goals simp_all

/-- C8 (amended): an active input-method composition suppresses sending in
both shortcut modes; the 100ms post-composition guard suppresses sending in
the plain-Enter mode (in cmdEnter mode only active composition is
checked). -/
theorem c8_composition_suppresses_send (o : KeyboardOpts) (e : KeyEvent) :
    ((o.isComposing || e.nativeIsComposing) = true → onKeyDown o e ≠ KeyOutcome.submit) ∧
    (o.sendShortcut = SendShortcut.enter → o.now - o.lastCompositionEndTime < 100 →
      onKeyDown o e ≠ KeyOutcome.submit) := by
  constructor
  · intro hcomp
    exact onKeyDown_ne_submit_of_sendKey_false o e (isSendKeyOf_false_of_composing o e hcomp)
  · intro hss hrec
    apply onKeyDown_ne_submit_of_sendKey_false
    unfold isSendKeyOf
    rw [hss]
    simp [isRecentlyComposingOf, decide_eq_true hrec]

/-- C8 counterexample: in cmdEnter mode, a Cmd+Enter key-down arriving 50ms
after composition ended (composition no longer active) does submit, so the
100ms guard does not hold in both shortcut modes. -/
theorem c8_counterexample :
    cexOpts8.sendShortcut = SendShortcut.cmdEnter ∧
    cexOpts8.now - cexOpts8.lastCompositionEndTime < 100 ∧
    cexOpts8.isComposing = false ∧
    cexEvt8.nativeIsComposing = false ∧
    onKeyDown cexOpts8 cexEvt8 = KeyOutcome.submit := by decide

/-- C8 witness: with composition active (and plain-Enter mode, 50ms after
composition end) an Enter key-down does not submit. -/
theorem c8_witness :
    ((wOpts8.isComposing || wEvt8.nativeIsComposing) = true ∧
      onKeyDown wOpts8 wEvt8 ≠ KeyOutcome.submit) ∧
    (wOpts8.sendShortcut = SendShortcut.enter ∧
      wOpts8.now - wOpts8.lastCompositionEndTime < 100 ∧
      onKeyDown wOpts8 wEvt8 ≠ KeyOutcome.submit) :=
  ⟨⟨by decide, (c8_composition_suppresses_send wOpts8 wEvt8).1 (by decide)⟩,
   ⟨by decide, by decide,
    (c8_composition_suppresses_send wOpts8 wEvt8).2 (by decide) (by decide)⟩⟩

/-- C9 (amended): a Shift+Tab key-down with composition inactive, provider
'claude', the mode-select callback present, a non-empty current permission
mode, and no earlier stage consuming the event, selects the next mode in
the cyclic order default → plan → acceptEdits → bypassPermissions →
default; any non-empty mode outside that list advances to 'default' (the
indexOf miss of -1 advances to index 0).  (An empty-string mode is JS-falsy
and skips the mode-switch branch entirely, so the claim's out-of-list case
holds only for non-empty modes.) -/
theorem c9_shift_tab_mode_cycle (o : KeyboardOpts) (e : KeyEvent) (m : String)
    (hkey : e.key = "Tab") (hshift : e.shiftKey = true)
    (hcomp : o.isComposing = false) (hncomp : e.nativeIsComposing = false)
    (hprov : o.currentProvider = some "claude") (hcb : o.hasOnModeSelect = true)
    (hmode : o.permissionMode = some m) (hm : m ≠ "")
    (hmac : o.macCursorHandles = false)
    (hfile : (o.fileOpen && o.fileHandles) = false)
    (hcmd : (o.commandOpen && o.commandHandles) = false)
    (hagent : (o.agentOpen && o.agentHandles) = false) :
    onKeyDown o e = KeyOutcome.modeSelect (nextPermissionMode m) ∧
    nextPermissionMode "default" = "plan" ∧
    nextPermissionMode "plan" = "acceptEdits" ∧
    nextPermissionMode "acceptEdits" = "bypassPermissions" ∧
    nextPermissionMode "bypassPermissions" = "default" ∧
    (m ∉ modeOrder → nextPermissionMode m = "default") := by
  refine ⟨?_, by decide, by decide, by decide, by decide, ?_⟩
  · have htruthy : jsTruthy o.permissionMode = true := by
      rw [hmode]
      simp [jsTruthy, hm]
    unfold onKeyDown
    rw [hmac, hfile, hcmd, hagent, hkey, hshift, hprov, hcb, htruthy, hmode]
    simp [isIMEComposingOf, hcomp, hncomp]
  · intro hnot
    simp only [modeOrder, List.mem_cons, List.not_mem_nil, or_false, not_or] at hnot
    obtain ⟨h1, h2, h3, h4⟩ := hnot
    have hidx : jsIndexOf modeOrder m = -1 := by
      unfold jsIndexOf modeOrder
      simp [jsIndexOf.go, Ne.symm h1, Ne.symm h2, Ne.symm h3, Ne.symm h4]
    unfold nextPermissionMode
    rw [hidx]
    decide

/-- C9 counterexample: with an empty-string permission mode provided (a
value outside the mode list), the Shift+Tab branch is skipped because the
empty string is JS-falsy, and the callback does not receive 'default' — the
event falls through to the send stage. -/
theorem c9_counterexample :
    cexOpts9.permissionMode = some "" ∧
    cexOpts9.currentProvider = some "claude" ∧
    cexOpts9.hasOnModeSelect = true ∧
    cexEvt9.key = "Tab" ∧ cexEvt9.shiftKey = true ∧
    onKeyDown cexOpts9 cexEvt9 = KeyOutcome.noSend ∧
    onKeyDown cexOpts9 cexEvt9 ≠ KeyOutcome.modeSelect "default" := by decide

/-- C9 witness: Shift+Tab with mode "plan" selects "acceptEdits". -/
theorem c9_witness :
    onKeyDown wOpts9 cexEvt9 = KeyOutcome.modeSelect (nextPermissionMode "plan") ∧
    nextPermissionMode "plan" = "acceptEdits" :=
  ⟨(c9_shift_tab_mode_cycle wOpts9 cexEvt9 "plan" rfl rfl rfl rfl rfl rfl rfl
      (by decide) rfl rfl rfl rfl).1,
   (c9_shift_tab_mode_cycle wOpts9 cexEvt9 "plan" rfl rfl rfl rfl rfl rfl rfl
      (by decide) rfl rfl rfl rfl).2.2.1⟩

/-- C10 (amended): for a key of length greater than 10, the masked preview
is the first 8 characters, then exactly 8 bullets, then the last 4
characters (so it has 20 characters, and any two such keys agreeing on
their first 8 and last 4 characters produce identical previews — the middle
never influences the output); for a NON-EMPTY key of length at most 10 the
preview is entirely bullets of the key's length (the empty key instead
renders the not-configured placeholder). -/
theorem c10_apiKey_preview_masks_middle (k : String) (hk : k ≠ "") :
    (10 < k.length →
      getApiKeyPreview false k =
        String.mk (k.data.take 8) ++ String.mk (List.replicate 8 '•')
          ++ String.mk ((k.data.reverse.take 4).reverse) ∧
      (getApiKeyPreview false k).length = 20 ∧
      (∀ k2 : String, 10 < k2.length →
        k.data.take 8 = k2.data.take 8 →
        (k.data.reverse.take 4).reverse = (k2.data.reverse.take 4).reverse →
        getApiKeyPreview false k = getApiKeyPreview false k2)) ∧
    (k.length ≤ 10 → getApiKeyPreview false k = String.mk (List.replicate k.length '•')) := by
  have hlast : ∀ s : String, (s.data.reverse.take 4).reverse = s.data.drop (s.data.length - 4) := by
    intro s
    rw [List.reverse_take]
    simp
  have hdef : ∀ s : String, s ≠ "" → 10 < s.length →
      getApiKeyPreview false s =
        String.mk (s.data.take 8) ++ String.mk (List.replicate 8 '•')
          ++ String.mk (s.data.drop (s.length - 4)) := by
    intro s hs hlen
    unfold getApiKeyPreview
    rw [if_neg (by simpa using hs), if_neg (by simp), if_neg (by omega)]
  constructor
  · intro hlen
    have hk10 := hdef k hk hlen
    have hkl : k.length = k.data.length := rfl
    refine ⟨?_, ?_, ?_⟩
    · rw [hk10, hlast k, hkl]
    · rw [hk10]
      rw [String.length_append, String.length_append]
      have h1 : (String.mk (k.data.take 8)).length = (k.data.take 8).length := rfl
      have h2 : (String.mk (List.replicate 8 '•')).length = 8 := rfl
      have h3 : (String.mk (k.data.drop (k.length - 4))).length =
          (k.data.drop (k.length - 4)).length := rfl
      rw [h1, h2, h3, List.length_take, List.length_drop]
      omega
    · intro k2 hlen2 htake hlast4
      have hk2ne : k2 ≠ "" := by
        intro h
        rw [h] at hlen2
        exact absurd hlen2 (by decide)
      have hk210 := hdef k2 hk2ne hlen2
      have hkl2 : k2.length = k2.data.length := rfl
      rw [hk10, hk210, htake, hkl, hkl2, ← hlast k, ← hlast k2, hlast4]
  · intro hle
    unfold getApiKeyPreview
    rw [if_neg (by simpa using hk), if_neg (by simp), if_pos hle]

/-- C10 counterexample: the empty key has length at most 10 but its preview
is the not-configured placeholder, not an empty bullet string. -/
theorem c10_counterexample :
    ("" : String).length ≤ 10 ∧
    getApiKeyPreview false "" ≠ String.mk (List.replicate ("" : String).length '•') := by
  decide

/-- C10 witness: a 15-character key is masked to first 8, 8 bullets, last
4; a 5-character key is fully masked; two long keys sharing first 8 and
last 4 produce the same preview. -/
theorem c10_witness :
    ("sk-abcdefgh12345" : String) ≠ "" ∧ 10 < ("sk-abcdefgh12345" : String).length ∧
    getApiKeyPreview false "sk-abcdefgh12345" =
      String.mk (("sk-abcdefgh12345" : String).data.take 8)
        ++ String.mk (List.replicate 8 '•')
        ++ String.mk ((("sk-abcdefgh12345" : String).data.reverse.take 4).reverse) ∧
    (("short" : String).length ≤ 10 ∧
      getApiKeyPreview false "short" =
        String.mk (List.replicate ("short" : String).length '•')) ∧
    getApiKeyPreview false "sk-abcdefgh12345" = getApiKeyPreview false "sk-abcdeXYZW2345" :=
  ⟨by decide, by decide,
   ((c10_apiKey_preview_masks_middle "sk-abcdefgh12345" (by decide)).1 (by decide)).1,
   ⟨by decide,
    (c10_apiKey_preview_masks_middle "short" (by decide)).2 (by decide)⟩,
   ((c10_apiKey_preview_masks_middle "sk-abcdefgh12345" (by decide)).1 (by decide)).2.2
     "sk-abcdeXYZW2345" (by decide) (by decide) (by decide)⟩

end IdeaClaudeGui
